import Mathlib

/-!
# Verification of the `oslog` category-aware log dispatcher (`src/logger.rs`)

Shallow embedding of the Rust source. The program routes log records,
tagged with a free-form category string, to per-category native sinks
(`OsLog` handles), filtering each record against a per-category severity
threshold with fallback to the ambient `log::max_level()` global.

Modelling conventions:
* `Level` / `LevelFilter` mirror the `log` crate's enumerations together
  with their `usize` representations (`Level`: Error = 1 … Trace = 5,
  `LevelFilter`: Off = 0 … Trace = 5); the crate's
  `Level <= LevelFilter` comparison compares those representations.
* The `DashMap<String, (Option<LevelFilter>, OsLog)>` registry is an
  association list with unique keys maintained by the operations
  themselves (`entry().and_modify().or_insert()` updates in place or
  appends); lookups are order-insensitive, mirroring the map.
* Side effects are made explicit: every `OsLog::new` call is recorded in
  a `created` trace and every `OsLog::with_level` call in an `emitted`
  trace. Note that Rust evaluates the argument of `Entry::or_insert`
  eagerly, so `OsLog::new(..)` runs even when the entry already exists;
  the embedding reproduces this faithfully.
* The `log` crate's globals (`max_level`, whether a logger has been
  installed by `set_logger`) and the `IOS_LOGGER` once-cell are explicit
  state (`GlobalState`); `log::max_level()` starts at `Off`.
-/

namespace Oslog

/-- The `log` crate's `Level` enumeration (a record's severity). -/
inductive Level where
  | error
  | warn
  | info
  | debug
  | trace
deriving DecidableEq, Repr

/-- The `usize` representation of `log::Level` (Error = 1, …, Trace = 5). -/
def Level.toNat : Level → Nat
  | .error => 1
  | .warn => 2
  | .info => 3
  | .debug => 4
  | .trace => 5

/-- The `log` crate's `LevelFilter` enumeration (a threshold; `Off` rejects everything). -/
inductive LevelFilter where
  | off
  | error
  | warn
  | info
  | debug
  | trace
deriving DecidableEq, Repr

/-- The `usize` representation of `log::LevelFilter` (Off = 0, …, Trace = 5). -/
def LevelFilter.toNat : LevelFilter → Nat
  | .off => 0
  | .error => 1
  | .warn => 2
  | .info => 3
  | .debug => 4
  | .trace => 5

/-- The `log` crate's `Level <= LevelFilter` comparison: it compares the
`usize` representations (`metadata.level() <= max_level` in `enabled`). -/
def levelLeFilter (l : Level) (f : LevelFilter) : Bool :=
  l.toNat ≤ f.toNat

/-- Modelled from the spec: the native Sink Handle (`crate::OsLog`, whose
definition is not under `src/`) is "an opaque … resource created from
(subsystem identifier, category name)". -/
structure OsLog where
  subsystem : String
  category : String
deriving DecidableEq, Repr

/-- Modelled from the spec: `OsLog::new(subsystem, category)` constructs the
Sink Handle from the pair of identifiers (platform side effects are tracked
separately in the `created` trace of the state). -/
def OsLog.new (subsystem category : String) : OsLog :=
  ⟨subsystem, category⟩

/-- One registry value: `(Option<LevelFilter>, OsLog)`. -/
abbrev Entry := Option LevelFilter × OsLog

/-- The registry contents: `DashMap<String, Entry>` as an association list. -/
abbrev Registry := List (String × Entry)

/-- Key lookup in the registry (`DashMap::get`). -/
def lookupEntry : Registry → String → Option Entry
  | [], _ => none
  | (k, e) :: rest, c => if k = c then some e else lookupEntry rest c

/-- Whether the registry has an entry for the key. -/
def containsKey (m : Registry) (c : String) : Bool :=
  (lookupEntry m c).isSome

/-- In-place update of every entry stored under the key
(`Entry::and_modify`; keys are unique so at most one is hit). -/
def modifyEntry (m : Registry) (c : String) (f : Entry → Entry) : Registry :=
  m.map fun p => if p.1 = c then (p.1, f p.2) else p

/-- Number of entries stored under the key (used to state key uniqueness). -/
def countKey (m : Registry) (c : String) : Nat :=
  (m.filter fun p => p.1 = c).length

/-- `Config` from `src/logger.rs`: subsystem, optional global level, registry. -/
structure Config where
  subsystem : String := ""
  log_level : Option LevelFilter := none
  loggers : Registry := []
deriving DecidableEq, Repr

/-- `Config::default()` (all fields at their `Default` values). -/
def Config.default : Config := {}

/-- `Config::with_subsystem`. -/
def Config.with_subsystem (c : Config) (subsystem : String) : Config :=
  { c with subsystem := subsystem }

/-- `Config::with_max_level`. -/
def Config.with_max_level (c : Config) (level : LevelFilter) : Config :=
  { c with log_level := some level }

/-- `Config::with_category_level_filter`. Returns the new configuration and
the list of `OsLog::new` constructions the call performed. Rust evaluates
the argument of `or_insert` eagerly, so `OsLog::new(&self.subsystem,
category)` runs on every call, even when `and_modify` then updates an
existing entry and the fresh handle is dropped. -/
def Config.with_category_level_filter (c : Config) (category : String)
    (level : LevelFilter) : Config × List OsLog :=
  let fresh := OsLog.new c.subsystem category
  if containsKey c.loggers category then
    ({ c with loggers := modifyEntry c.loggers category fun e => (some level, e.2) },
     [fresh])
  else
    ({ c with loggers := c.loggers ++ [(category, (some level, fresh))] },
     [fresh])

/-- The dispatcher-side state an `OsLogger` method call can touch: the stored
`Config` (its `DashMap` is interior-mutable), the `log` crate's ambient
`max_level` global, and the two side-effect traces. -/
structure LogState where
  config : Config
  maxLevel : LevelFilter
  emitted : List (OsLog × Level × String) := []
  created : List OsLog := []
deriving DecidableEq, Repr

/-- `OsLogger::enabled` (via `Log for OsLogger`): look up the target's entry,
take its threshold if one is set, else fall back to `log::max_level()`,
and compare the record's level against it. Pure read. -/
def OsLogger.enabled (cfg : Config) (maxLevel : LevelFilter)
    (target : String) (level : Level) : Bool :=
  levelLeFilter level (((lookupEntry cfg.loggers target).bind fun p => p.1).getD maxLevel)

/-- The full method call `OsLogger::enabled`, with the state threaded to make
its read-only nature a statement: the body performs only `DashMap::get`. -/
def OsLogger.enabledRun (s : LogState) (target : String) (level : Level) :
    Bool × LogState :=
  (OsLogger.enabled s.config s.maxLevel target level, s)

/-- `OsLogger::log`: re-check `enabled`; if enabled, `entry(target).or_insert
((None, OsLog::new(subsystem, target)))` (the `OsLog::new` argument is
evaluated eagerly and recorded in `created` whether or not the entry
existed), then `pair.1.with_level(level, message)` on the entry's handle,
recorded in `emitted`. -/
def OsLogger.log (s : LogState) (target : String) (level : Level)
    (message : String) : LogState :=
  if OsLogger.enabled s.config s.maxLevel target level then
    let fresh := OsLog.new s.config.subsystem target
    match lookupEntry s.config.loggers target with
    | some pair =>
        { s with
          created := s.created ++ [fresh]
          emitted := s.emitted ++ [(pair.2, level, message)] }
    | none =>
        { s with
          config := { s.config with
            loggers := s.config.loggers ++ [(target, (none, fresh))] }
          created := s.created ++ [fresh]
          emitted := s.emitted ++ [(fresh, level, message)] }
  else s

/-- `OsLogger::flush` (empty body). -/
def OsLogger.flush (s : LogState) : LogState := s

/-- An operation that touches the shared registry: a configuration call
`with_category_level_filter` or a `log` call. -/
inductive Op where
  | filterCat (category : String) (level : LevelFilter)
  | logRec (target : String) (level : Level) (message : String)

/-- Run one registry-touching operation, accumulating the `created` trace. -/
def runOp (s : LogState) : Op → LogState
  | .filterCat c l =>
      let r := s.config.with_category_level_filter c l
      { s with config := r.1, created := s.created ++ r.2 }
  | .logRec t l m => OsLogger.log s t l m

/-- The `log` crate globals together with the `IOS_LOGGER` once-cell:
`iosLogger` holds the stored dispatcher's `Config` once initialized,
`maxLevel` is `log::max_level()`, `loggerSet` records whether
`log::set_logger` has already installed a logger, and `emitted`/`created`
are the process-wide side-effect traces (the stored dispatcher's registry is
mutated in place through the installed logger, e.g. by the diagnostic
`log::debug!` inside `init_once`). -/
structure GlobalState where
  iosLogger : Option Config
  maxLevel : LevelFilter
  loggerSet : Bool
  emitted : List (OsLog × Level × String) := []
  created : List OsLog := []
deriving DecidableEq, Repr

/-- Process start: no logger stored, no logger set, empty traces, and the
`log` crate's `MAX_LOG_LEVEL_FILTER` at its initial value `Off`. -/
def GlobalState.initial : GlobalState :=
  { iosLogger := none, maxLevel := .off, loggerSet := false }

/-- `log::set_logger`: errors iff a logger is already installed
(`SetLoggerError`), otherwise installs the logger. -/
def setLoggerE (gs : GlobalState) : Except String GlobalState :=
  if gs.loggerSet then .error "SetLoggerError" else .ok { gs with loggerSet := true }

/-- Modelled from the facade: the formatted text of the diagnostic record in
`init_once`'s `Err` arm — the source's format string
`"oslog: log::set_logger failed: {}"` applied to `SetLoggerError`'s
`Display` output. -/
def setLoggerFailedMessage : String :=
  "oslog: log::set_logger failed: attempted to set a logger after the logging system was already initialized"

/-- The dispatcher-level view of the process state: the stored config
together with the ambient level and the side-effect traces, as seen by an
`OsLogger` method running against the installed logger. -/
def dispatcherView (gs : GlobalState) (cfg : Config) : LogState :=
  { config := cfg, maxLevel := gs.maxLevel,
    emitted := gs.emitted, created := gs.created }

/-- The `log::debug!("oslog: log::set_logger failed: {}", err)` call in
`init_once`'s `Err` arm. The `debug!` macro dispatches only when
`Level::Debug <= log::max_level()` (the crate's `STATIC_MAX_LEVEL` is Trace
under default features, so only the dynamic gate matters); it then re-enters
the installed logger — the stored `OsLogger`, since this program's only
`set_logger` caller is `init_once` itself — running `OsLogger::log` against
the stored dispatcher with target `module_path!()`, i.e. "oslog::logger" for
this crate, at level Debug. When reached from `init_once`, `gs.iosLogger` is
always `some`. -/
def debugDiagnostic (gs : GlobalState) : GlobalState :=
  if levelLeFilter .debug gs.maxLevel then
    match gs.iosLogger with
    | some cfg =>
        let s' := OsLogger.log (dispatcherView gs cfg)
          "oslog::logger" .debug setLoggerFailedMessage
        { gs with iosLogger := some s'.config, emitted := s'.emitted,
                  created := s'.created }
    | none => gs
  else gs

/-- `init_once(config)`: read `config.log_level` first, then
`IOS_LOGGER.get_or_init(|| OsLogger::new(config))` (first caller stores its
config, later configs are discarded), then `log::set_logger`; on error the
`log::debug!` diagnostic re-enters the installed logger (`debugDiagnostic`),
on success `log::set_max_level(level)` runs when the incoming config carried
one. Total: no error reaches the caller. -/
def init_once (gs : GlobalState) (config : Config) : GlobalState :=
  let log_level := config.log_level
  let gs1 := match gs.iosLogger with
    | none => { gs with iosLogger := some config }
    | some _ => gs
  match setLoggerE gs1 with
  | .error _ => debugDiagnostic gs1
  | .ok gs2 =>
      match log_level with
      | some level => { gs2 with maxLevel := level }
      | none => gs2

/-- The Sink Handle `with_category_level_filter` or `log` leaves stored for a
category: the existing entry's handle when present, else the freshly
constructed `OsLog::new(subsystem, category)`. -/
def entrySink (cfg : Config) (c : String) : OsLog :=
  match lookupEntry cfg.loggers c with
  | some e => e.2
  | none => OsLog.new cfg.subsystem c

/-- A sequence of `log` calls, each `(target, level, message)`. -/
def runLogs (s : LogState) (records : List (String × Level × String)) : LogState :=
  records.foldl (fun st r => OsLogger.log st r.1 r.2.1 r.2.2) s

/-- A sequence of `with_category_level_filter` calls for one category
(builder chaining keeps only the configuration, `.1`). -/
def applyFilters (cfg : Config) (c : String) (ls : List LevelFilter) : Config :=
  ls.foldl (fun a l => (a.with_category_level_filter c l).1) cfg

/-- Equivalence of configurations: equal subsystem and global level, and
registries equal as maps (the `DashMap` is unordered, so entry order in the
association-list model is not observable). -/
def Config.equiv (c₁ c₂ : Config) : Prop :=
  c₁.subsystem = c₂.subsystem ∧ c₁.log_level = c₂.log_level ∧
  ∀ k, lookupEntry c₁.loggers k = lookupEntry c₂.loggers k

/-- One call of the public API surface: `Log::enabled`, `Log::log`,
`Log::flush`, or `init_once`. -/
inductive ApiCall where
  | enabledQ (target : String) (level : Level)
  | logRec (target : String) (level : Level) (message : String)
  | flushCall
  | initCall (config : Config)

/-- Run one public API call. `none` would mean an error (or panic) escaped to
the caller. The single fallible internal step in the source, `log::set_logger`
(the only `Result` in `src/logger.rs`), is matched explicitly: its `Err` is
absorbed into the `log::debug!` diagnostic (`debugDiagnostic`, which
re-enters the stored dispatcher and is itself total) and the call still
completes. -/
def runApi (gs : GlobalState) (s : LogState) : ApiCall → Option (GlobalState × LogState)
  | .enabledQ t l => some (gs, (OsLogger.enabledRun s t l).2)
  | .logRec t l m => some (gs, OsLogger.log s t l m)
  | .flushCall => some (gs, OsLogger.flush s)
  | .initCall c =>
      let gs1 := match gs.iosLogger with
        | none => { gs with iosLogger := some c }
        | some _ => gs
      match setLoggerE gs1 with
      | .error _ => some (debugDiagnostic gs1, s)
      | .ok gs2 =>
          match c.log_level with
          | some level => some ({ gs2 with maxLevel := level }, s)
          | none => some (gs2, s)

/-- Severity rank of a record's level, following the spec's words: "most to
least verbose: Trace, Debug, Info, Warn, Error" — Trace least severe (0),
Error most severe (4). -/
def Level.severityRank : Level → Nat
  | .trace => 0
  | .debug => 1
  | .info => 2
  | .warn => 3
  | .error => 4

/-- Severity rank of a threshold, following the spec's words; `Off` has no
rank ("rejects everything"). -/
def LevelFilter.thresholdRank : LevelFilter → Option Nat
  | .off => none
  | .trace => some 0
  | .debug => some 1
  | .info => some 2
  | .warn => some 3
  | .error => some 4

/-- Modelled from the spec's words (not from the source — the source-side
counterpart is `OsLogger.enabled`): a record of severity `s` "is at least as
severe as" threshold `t`, boundary `s == t` included; an `Off` threshold
"rejects everything", including Error. -/
def atLeastAsSevere (s : Level) (t : LevelFilter) : Bool :=
  match t.thresholdRank with
  | none => false
  | some r => r ≤ s.severityRank

/-- A state whose category "Settings" filters at `Warn` (used as a concrete
input below). -/
def settingsWarnState : LogState :=
  { config := (Config.default.with_category_level_filter "Settings" .warn).1
    maxLevel := .off }

/-- A permissive state with an empty registry and subsystem "sub" (used as a
concrete input below). -/
def freshTraceState : LogState :=
  { config := Config.default.with_subsystem "sub"
    maxLevel := .trace }

/-- The state after `with_subsystem("com.example.oslog")` followed by
`with_category_level_filter("Database", Error)` (used as a concrete input
below). -/
def databaseErrorState : LogState :=
  runOp { config := Config.default.with_subsystem "com.example.oslog"
          maxLevel := .trace }
    (.filterCat "Database" .error)

/-- The process state after a first
`init_once(Config::default().with_subsystem("com.example.oslog").with_max_level(Trace))`
(used as a concrete input below). -/
def firstInitState : GlobalState :=
  init_once GlobalState.initial
    ((Config.default.with_subsystem "com.example.oslog").with_max_level .trace)

/-! ## Registry lemmas -/

@[simp]
theorem lookupEntry_nil (c : String) : lookupEntry [] c = none := rfl

@[simp]
theorem lookupEntry_cons (k : String) (e : Entry) (rest : Registry) (c : String) :
    lookupEntry ((k, e) :: rest) c = if k = c then some e else lookupEntry rest c := rfl

@[simp]
theorem modifyEntry_nil (c : String) (f : Entry → Entry) : modifyEntry [] c f = [] := rfl

@[simp]
theorem modifyEntry_cons (k : String) (e : Entry) (rest : Registry) (c : String)
    (f : Entry → Entry) :
    modifyEntry ((k, e) :: rest) c f
      = (if k = c then (k, f e) else (k, e)) :: modifyEntry rest c f := by
  by_cases hk : k = c <;> simp [modifyEntry, hk]

@[simp]
theorem countKey_nil (c : String) : countKey [] c = 0 := rfl

@[simp]
theorem countKey_cons (k : String) (e : Entry) (rest : Registry) (c : String) :
    countKey ((k, e) :: rest) c
      = if k = c then countKey rest c + 1 else countKey rest c := by
  by_cases hk : k = c <;> simp [countKey, List.filter_cons, hk]

theorem lookupEntry_append_of_none {m : Registry} {c : String}
    (m' : Registry) (h : lookupEntry m c = none) :
    lookupEntry (m ++ m') c = lookupEntry m' c := by
  induction m with
  | nil => rfl
  | cons p rest ih =>
      obtain ⟨k, e⟩ := p
      by_cases hk : k = c
      · simp [hk] at h
      · simp only [List.cons_append, lookupEntry_cons, hk, if_false] at h ⊢
        exact ih h

theorem lookupEntry_append_of_some {m : Registry} {c : String} {e₀ : Entry}
    (m' : Registry) (h : lookupEntry m c = some e₀) :
    lookupEntry (m ++ m') c = some e₀ := by
  induction m with
  | nil => simp at h
  | cons p rest ih =>
      obtain ⟨k, e⟩ := p
      by_cases hk : k = c
      · simpa [hk] using h
      · simp only [List.cons_append, lookupEntry_cons, hk, if_false] at h ⊢
        exact ih h

theorem lookupEntry_append_single_ne {c t : String} (m : Registry) (x : Entry)
    (h : c ≠ t) : lookupEntry (m ++ [(t, x)]) c = lookupEntry m c := by
  cases he : lookupEntry m c with
  | none =>
      rw [lookupEntry_append_of_none _ he]
      simp [Ne.symm h]
  | some e => exact lookupEntry_append_of_some _ he

theorem lookupEntry_modify_self (m : Registry) (c : String) (f : Entry → Entry) :
    lookupEntry (modifyEntry m c f) c = (lookupEntry m c).map f := by
  induction m with
  | nil => rfl
  | cons p rest ih =>
      obtain ⟨k, e⟩ := p
      by_cases hk : k = c <;> simp [hk, ih]

theorem lookupEntry_modify_ne {c c' : String} (m : Registry) (f : Entry → Entry)
    (h : c' ≠ c) : lookupEntry (modifyEntry m c f) c' = lookupEntry m c' := by
  induction m with
  | nil => rfl
  | cons p rest ih =>
      obtain ⟨k, e⟩ := p
      by_cases hk : k = c
      · have hcc : ¬c = c' := fun hh => h hh.symm
        simp [hk, hcc, ih]
      · by_cases hk' : k = c' <;> simp [hk, hk', h, ih]

theorem countKey_modify (m : Registry) (c c' : String) (f : Entry → Entry) :
    countKey (modifyEntry m c f) c' = countKey m c' := by
  induction m with
  | nil => rfl
  | cons p rest ih =>
      obtain ⟨k, e⟩ := p
      rw [modifyEntry_cons]
      by_cases hk : k = c
      · rw [if_pos hk, countKey_cons, countKey_cons, ih]
      · rw [if_neg hk, countKey_cons, countKey_cons, ih]

theorem countKey_append (m m' : Registry) (c : String) :
    countKey (m ++ m') c = countKey m c + countKey m' c := by
  simp [countKey, List.filter_append]

theorem countKey_eq_zero_of_lookup_none {m : Registry} {c : String}
    (h : lookupEntry m c = none) : countKey m c = 0 := by
  induction m with
  | nil => rfl
  | cons p rest ih =>
      obtain ⟨k, e⟩ := p
      by_cases hk : k = c
      · simp [hk] at h
      · simp only [lookupEntry_cons, hk, if_false] at h
        simp [hk, ih h]

theorem countKey_pos_of_lookup_some {m : Registry} {c : String} {e₀ : Entry}
    (h : lookupEntry m c = some e₀) : 1 ≤ countKey m c := by
  induction m with
  | nil => simp at h
  | cons p rest ih =>
      obtain ⟨k, e⟩ := p
      by_cases hk : k = c
      · simp [hk]
      · simp only [lookupEntry_cons, hk, if_false] at h
        simpa [hk] using ih h

/-! ## Builder and dispatch lemmas -/

theorem filter_fst_subsystem (cfg : Config) (c : String) (l : LevelFilter) :
    ((cfg.with_category_level_filter c l).1).subsystem = cfg.subsystem := by
  unfold Config.with_category_level_filter
  split <;> rfl

theorem filter_fst_log_level (cfg : Config) (c : String) (l : LevelFilter) :
    ((cfg.with_category_level_filter c l).1).log_level = cfg.log_level := by
  unfold Config.with_category_level_filter
  split <;> rfl

theorem filter_lookup_self (cfg : Config) (c : String) (l : LevelFilter) :
    lookupEntry ((cfg.with_category_level_filter c l).1).loggers c
      = some (some l, entrySink cfg c) := by
  unfold Config.with_category_level_filter containsKey entrySink
  cases he : lookupEntry cfg.loggers c with
  | some e => simp [he, lookupEntry_modify_self]
  | none => simp [he, lookupEntry_append_of_none _ he]

theorem filter_lookup_ne {k c : String} (cfg : Config) (l : LevelFilter)
    (h : k ≠ c) :
    lookupEntry ((cfg.with_category_level_filter c l).1).loggers k
      = lookupEntry cfg.loggers k := by
  unfold Config.with_category_level_filter containsKey
  cases he : lookupEntry cfg.loggers c with
  | some e => simp [he, lookupEntry_modify_ne _ _ h]
  | none => simp [he, lookupEntry_append_single_ne _ _ h]

theorem entrySink_filter_ne {k c : String} (cfg : Config) (l : LevelFilter)
    (h : k ≠ c) :
    entrySink ((cfg.with_category_level_filter c l).1) k = entrySink cfg k := by
  unfold entrySink
  rw [filter_lookup_ne cfg l h, filter_fst_subsystem]

theorem filter_countKey_self (cfg : Config) (c : String) (l : LevelFilter)
    (h : countKey cfg.loggers c ≤ 1) :
    countKey ((cfg.with_category_level_filter c l).1).loggers c = 1 := by
  unfold Config.with_category_level_filter containsKey
  cases he : lookupEntry cfg.loggers c with
  | some e =>
      have h1 := countKey_pos_of_lookup_some he
      simp only [he, Option.isSome_some, if_pos, countKey_modify]
      omega
  | none =>
      simp [he, countKey_append, countKey_eq_zero_of_lookup_none he]

theorem enabled_after_log (s : LogState) (t : String) (l : Level) (m : String)
    (c : String) (l' : Level) :
    OsLogger.enabled (OsLogger.log s t l m).config (OsLogger.log s t l m).maxLevel c l'
      = OsLogger.enabled s.config s.maxLevel c l' := by
  unfold OsLogger.log
  by_cases hen : OsLogger.enabled s.config s.maxLevel t l
  · rw [if_pos hen]
    cases he : lookupEntry s.config.loggers t with
    | some pair => rfl
    | none =>
        show OsLogger.enabled
            { s.config with loggers := s.config.loggers ++ [(t, (none, OsLog.new s.config.subsystem t))] }
            s.maxLevel c l' = _
        unfold OsLogger.enabled
        by_cases hct : c = t
        · subst hct
          rw [show ({ s.config with
                loggers := s.config.loggers ++ [(c, (none, OsLog.new s.config.subsystem c))] } : Config).loggers
              = s.config.loggers ++ [(c, (none, OsLog.new s.config.subsystem c))] from rfl,
            lookupEntry_append_of_none _ he, he]
          simp
        · rw [show ({ s.config with
                loggers := s.config.loggers ++ [(t, (none, OsLog.new s.config.subsystem t))] } : Config).loggers
              = s.config.loggers ++ [(t, (none, OsLog.new s.config.subsystem t))] from rfl,
            lookupEntry_append_single_ne _ _ hct]
  · rw [if_neg hen]

theorem log_config_subsystem (s : LogState) (t : String) (l : Level) (m : String) :
    (OsLogger.log s t l m).config.subsystem = s.config.subsystem := by
  unfold OsLogger.log
  by_cases hen : OsLogger.enabled s.config s.maxLevel t l
  · rw [if_pos hen]
    cases he : lookupEntry s.config.loggers t <;> rfl
  · rw [if_neg hen]

theorem log_config_log_level (s : LogState) (t : String) (l : Level) (m : String) :
    (OsLogger.log s t l m).config.log_level = s.config.log_level := by
  unfold OsLogger.log
  by_cases hen : OsLogger.enabled s.config s.maxLevel t l
  · rw [if_pos hen]
    cases he : lookupEntry s.config.loggers t <;> rfl
  · rw [if_neg hen]

theorem log_maxLevel (s : LogState) (t : String) (l : Level) (m : String) :
    (OsLogger.log s t l m).maxLevel = s.maxLevel := by
  unfold OsLogger.log
  by_cases hen : OsLogger.enabled s.config s.maxLevel t l
  · rw [if_pos hen]
    cases he : lookupEntry s.config.loggers t <;> rfl
  · rw [if_neg hen]

theorem log_lookup_ne {k t : String} (s : LogState) (l : Level) (m : String)
    (h : k ≠ t) :
    lookupEntry (OsLogger.log s t l m).config.loggers k
      = lookupEntry s.config.loggers k := by
  unfold OsLogger.log
  by_cases hen : OsLogger.enabled s.config s.maxLevel t l
  · rw [if_pos hen]
    cases he : lookupEntry s.config.loggers t with
    | some pair => rfl
    | none =>
        show lookupEntry (s.config.loggers
            ++ [(t, (none, OsLog.new s.config.subsystem t))]) k = _
        exact lookupEntry_append_single_ne _ _ h
  · rw [if_neg hen]

theorem log_lookup_some {t : String} {e : Entry} (s : LogState) (l : Level)
    (m : String) (h : lookupEntry s.config.loggers t = some e) :
    lookupEntry (OsLogger.log s t l m).config.loggers t = some e := by
  unfold OsLogger.log
  by_cases hen : OsLogger.enabled s.config s.maxLevel t l
  · rw [if_pos hen]
    cases he : lookupEntry s.config.loggers t with
    | some pair => exact h
    | none =>
        rw [he] at h
        exact Option.noConfusion h
  · rw [if_neg hen]
    exact h

/-! ## Claim theorems -/

/-- C1: for every category `C` with a configured threshold `T` (any of Trace,
Debug, Info, Warn, Error, Off) and every record severity `s`, `enabled(C, s)`
is true iff `s` is at least as severe as `T`, boundary `s == T` included; in
particular `T = Off` makes `enabled(C, s)` false for every severity,
including Error. -/
theorem enabled_iff_atLeastAsSevere (cfg : Config) (maxLevel : LevelFilter)
    (C : String) (T : LevelFilter) (sink : OsLog) (s : Level)
    (hC : lookupEntry cfg.loggers C = some (some T, sink)) :
    OsLogger.enabled cfg maxLevel C s = atLeastAsSevere s T := by
  unfold OsLogger.enabled
  rw [hC]
  cases T <;> cases s <;> rfl

/-- Witness for `enabled_iff_atLeastAsSevere` at a concrete input. -/
theorem enabled_iff_atLeastAsSevere_witness :
    OsLogger.enabled ((Config.default.with_category_level_filter "Settings" .warn).1)
        .off "Settings" .info
      = atLeastAsSevere .info .warn :=
  enabled_iff_atLeastAsSevere
    ((Config.default.with_category_level_filter "Settings" .warn).1) .off
    "Settings" .warn (OsLog.new "" "Settings") .info (by decide)

/-- C2 (code bug): with no per-category override and no ambient default set,
`enabled` is false, not true: the fallback is `log::max_level()`, whose
initial value is `Off`, and `init_once(Config::default())` never calls
`log::set_max_level` (`config.log_level` is `None`), so even an Error record
for a never-configured category is rejected — contradicting the permissive
default stated by the spec and by the source's own doc comment ("By default
the level filter will be set to `LevelFilter::Trace`"). -/
theorem enabled_rejects_all_without_override_and_ambient :
    (init_once GlobalState.initial Config.default).maxLevel = LevelFilter.off ∧
    OsLogger.enabled Config.default
        (init_once GlobalState.initial Config.default).maxLevel "AnyCategory" .error
      = false := by
  decide

/-- C3 (counterexample): a second `with_category_level_filter` call for a
category that already has a registry entry still constructs a second Sink
Handle for it — Rust evaluates the `or_insert` argument
`OsLog::new(&self.subsystem, category)` eagerly — so two handles for
"Database" are constructed even though its entry existed at the second
call. -/
theorem sink_constructed_twice_for_existing_category :
    containsKey databaseErrorState.config.loggers "Database" = true ∧
    ((runOp databaseErrorState (.filterCat "Database" .trace)).created.filter
        fun h => h.category = "Database").length = 2 := by
  decide

/-- C3 (amended): at most one Sink Handle per category is ever *stored* in
the registry: an entry's handle, once present, is never replaced by any later
`with_category_level_filter` or `log` call (only the threshold field can
change); the extra constructions are transient values that are dropped. -/
theorem entry_sink_never_replaced (s : LogState) (op : Op) (c : String)
    (e : Entry) (hc : lookupEntry s.config.loggers c = some e) :
    ((lookupEntry (runOp s op).config.loggers c).map fun x => x.2) = some e.2 := by
  cases op with
  | filterCat cat l =>
      show ((lookupEntry ((s.config.with_category_level_filter cat l).1).loggers c).map
          fun x => x.2) = some e.2
      by_cases hcc : c = cat
      · subst hcc
        rw [filter_lookup_self]
        simp [entrySink, hc]
      · rw [filter_lookup_ne _ _ hcc]
        simp [hc]
  | logRec t l m =>
      show ((lookupEntry (OsLogger.log s t l m).config.loggers c).map fun x => x.2)
          = some e.2
      unfold OsLogger.log
      by_cases hen : OsLogger.enabled s.config s.maxLevel t l
      · rw [if_pos hen]
        cases he : lookupEntry s.config.loggers t with
        | some pair => simp [hc]
        | none =>
            have hct : c ≠ t := by
              intro hh
              rw [hh, he] at hc
              exact Option.noConfusion hc
            show ((lookupEntry (s.config.loggers
                ++ [(t, (none, OsLog.new s.config.subsystem t))]) c).map fun x => x.2)
              = some e.2
            rw [lookupEntry_append_single_ne _ _ hct]
            simp [hc]
      · rw [if_neg hen]
        simp [hc]

/-- Witness for `entry_sink_never_replaced` at a concrete input. -/
theorem entry_sink_never_replaced_witness :
    ((lookupEntry (runOp databaseErrorState
        (.filterCat "Database" .trace)).config.loggers "Database").map fun x => x.2)
      = some (OsLog.new "com.example.oslog" "Database") :=
  entry_sink_never_replaced databaseErrorState (.filterCat "Database" .trace)
    "Database" (some .error, OsLog.new "com.example.oslog" "Database") (by decide)

/-- C4: `enabled` is read-only: for every prior state and every category
(including a never-before-seen one) the call returns the state unchanged —
no entry is created, no Sink Handle is constructed, and a subsequent
threshold lookup or registry size check reports exactly what it reported
before. -/
theorem enabled_read_only (s : LogState) (target : String) (level : Level) :
    (OsLogger.enabledRun s target level).2 = s ∧
    lookupEntry (OsLogger.enabledRun s target level).2.config.loggers target
      = lookupEntry s.config.loggers target ∧
    (OsLogger.enabledRun s target level).2.config.loggers.length
      = s.config.loggers.length ∧
    (OsLogger.enabledRun s target level).2.created = s.created :=
  ⟨rfl, rfl, rfl, rfl⟩

/-- C5: `log` is a no-op when `enabled` is false; when `enabled` is true it
obtains the category's registry entry — creating it with no threshold
override and a freshly constructed Sink Handle when absent, leaving the
registry unchanged when present — and emits `(severity, message)` on that
entry's Sink Handle exactly once. -/
theorem log_filters_then_dispatches (s : LogState) (t : String) (l : Level)
    (m : String) :
    (OsLogger.enabled s.config s.maxLevel t l = false → OsLogger.log s t l m = s) ∧
    (OsLogger.enabled s.config s.maxLevel t l = true →
      (∃ e, lookupEntry (OsLogger.log s t l m).config.loggers t = some e ∧
        (OsLogger.log s t l m).emitted = s.emitted ++ [(e.2, l, m)]) ∧
      (lookupEntry s.config.loggers t = none →
        (OsLogger.log s t l m).config.loggers
          = s.config.loggers ++ [(t, (none, OsLog.new s.config.subsystem t))]) ∧
      (∀ e₀, lookupEntry s.config.loggers t = some e₀ →
        (OsLogger.log s t l m).config.loggers = s.config.loggers)) := by
  constructor
  · intro hen
    unfold OsLogger.log
    rw [hen]
    rfl
  · intro hen
    unfold OsLogger.log
    rw [hen]
    cases he : lookupEntry s.config.loggers t with
    | some pair =>
        refine ⟨⟨pair, ?_, ?_⟩, fun hnone => absurd hnone (by simp), fun e₀ _ => ?_⟩
        · simp [he]
        · simp
        · simp
    | none =>
        refine ⟨⟨(none, OsLog.new s.config.subsystem t), ?_, ?_⟩, fun _ => ?_,
          fun e₀ h₀ => absurd h₀ (by simp)⟩
        · simp [lookupEntry_append_of_none _ he]
        · simp
        · simp

/-- Witness for `log_filters_then_dispatches` at concrete inputs: a
suppressed Info record for "Settings" (threshold Warn) leaves the state
untouched; an enabled Info record for the unseen category "Cat" appends the
lazily created entry. -/
theorem log_filters_then_dispatches_witness :
    (OsLogger.enabled settingsWarnState.config settingsWarnState.maxLevel
        "Settings" .info = false ∧
      OsLogger.log settingsWarnState "Settings" .info "Info" = settingsWarnState) ∧
    (OsLogger.enabled freshTraceState.config freshTraceState.maxLevel
        "Cat" .info = true ∧
      (OsLogger.log freshTraceState "Cat" .info "hello").config.loggers
        = freshTraceState.config.loggers ++ [("Cat", (none, OsLog.new "sub" "Cat"))]) :=
  ⟨⟨by decide,
    (log_filters_then_dispatches settingsWarnState "Settings" .info "Info").1 (by decide)⟩,
   ⟨by decide,
    ((log_filters_then_dispatches freshTraceState "Cat" .info "hello").2
      (by decide)).2.1 (by decide)⟩⟩

/-- C6 (counterexample): a second `init_once` call does *not* leave the
registry contents unchanged: `log::set_logger` fails and the `Err` arm's
`log::debug!` diagnostic re-enters the installed dispatcher itself, so after
a first call with `with_max_level(Trace)` the second call lazily inserts a
registry entry for category "oslog::logger" (absent before, threshold
`None`, fresh Sink Handle) and emits the diagnostic record — the resulting
state differs from the state before the call. -/
theorem second_init_once_mutates_registry :
    (firstInitState.iosLogger.map fun cfg => containsKey cfg.loggers "oslog::logger")
      = some false ∧
    ((init_once firstInitState Config.default).iosLogger.map
        fun cfg => lookupEntry cfg.loggers "oslog::logger")
      = some (some (none, OsLog.new "com.example.oslog" "oslog::logger")) ∧
    (init_once firstInitState Config.default).emitted
      = [(OsLog.new "com.example.oslog" "oslog::logger", .debug, setLoggerFailedMessage)] ∧
    init_once firstInitState Config.default ≠ firstInitState := by
  decide

/-- C6 (amended): a second (or later) `init_once` call discards the new
configuration entirely — the result does not depend on it, so its category
thresholds have no effect — keeps the ambient `max_level` and the installed
logger, preserves the stored dispatcher's subsystem and global level, leaves
every pre-existing registry entry (its threshold and handle) unchanged, and
changes no `enabled` outcome; the only registry key the call can touch is
"oslog::logger", lazily inserted (with no threshold override) by the
`log::debug!` diagnostic that the failing `log::set_logger` triggers.
No error is raised: `init_once` is total and returns unit. -/
theorem init_once_second_call_discards_config (gs : GlobalState)
    (cfg c2 c2' : Config)
    (h1 : gs.iosLogger = some cfg) (h2 : gs.loggerSet = true) :
    init_once gs c2 = init_once gs c2' ∧
    ((init_once gs c2).maxLevel = gs.maxLevel ∧
      (init_once gs c2).loggerSet = gs.loggerSet ∧
      ∃ cfg', (init_once gs c2).iosLogger = some cfg' ∧
        cfg'.subsystem = cfg.subsystem ∧
        cfg'.log_level = cfg.log_level ∧
        (∀ k, k ≠ "oslog::logger" →
          lookupEntry cfg'.loggers k = lookupEntry cfg.loggers k) ∧
        (∀ e, lookupEntry cfg.loggers "oslog::logger" = some e →
          lookupEntry cfg'.loggers "oslog::logger" = some e) ∧
        (∀ k l, OsLogger.enabled cfg' gs.maxLevel k l
          = OsLogger.enabled cfg gs.maxLevel k l)) := by
  have hred : ∀ cX : Config, init_once gs cX = debugDiagnostic gs := by
    intro cX
    unfold init_once setLoggerE
    rw [h1]
    simp [h2]
  refine ⟨(hred c2).trans (hred c2').symm, ?_⟩
  rw [hred c2]
  unfold debugDiagnostic
  rw [h1]
  by_cases hdbg : levelLeFilter .debug gs.maxLevel = true
  · rw [if_pos hdbg]
    refine ⟨rfl, rfl,
      (OsLogger.log (dispatcherView gs cfg)
        "oslog::logger" .debug setLoggerFailedMessage).config,
      rfl, ?_, ?_, ?_, ?_, ?_⟩
    · exact log_config_subsystem (dispatcherView gs cfg)
        "oslog::logger" .debug setLoggerFailedMessage
    · exact log_config_log_level (dispatcherView gs cfg)
        "oslog::logger" .debug setLoggerFailedMessage
    · intro k hk
      exact log_lookup_ne (dispatcherView gs cfg)
        .debug setLoggerFailedMessage hk
    · intro e he
      exact log_lookup_some (dispatcherView gs cfg)
        .debug setLoggerFailedMessage he
    · intro k l
      have h := enabled_after_log (dispatcherView gs cfg)
        "oslog::logger" .debug setLoggerFailedMessage k l
      rw [log_maxLevel] at h
      exact h
  · rw [if_neg hdbg]
    exact ⟨rfl, rfl, cfg, h1, rfl, rfl, fun _ _ => rfl, fun _ he => he,
      fun _ _ => rfl⟩

/-- Witness for `init_once_second_call_discards_config` at a concrete input:
after a first initialization, two further calls with different
configurations produce the same state, whose ambient level is unchanged. -/
theorem init_once_second_call_discards_config_witness :
    init_once firstInitState (Config.default.with_max_level .error)
      = init_once firstInitState Config.default ∧
    (init_once firstInitState (Config.default.with_max_level .error)).maxLevel
      = firstInitState.maxLevel :=
  ⟨(init_once_second_call_discards_config firstInitState
      ((Config.default.with_subsystem "com.example.oslog").with_max_level .trace)
      (Config.default.with_max_level .error) Config.default
      (by decide) (by decide)).1,
   (init_once_second_call_discards_config firstInitState
      ((Config.default.with_subsystem "com.example.oslog").with_max_level .trace)
      (Config.default.with_max_level .error) Config.default
      (by decide) (by decide)).2.1⟩

/-- C7: for every sequence of `with_category_level_filter` calls naming the
same category (on a registry holding at most one entry for it, the map
invariant), the registry ends with exactly one entry for that category,
whose threshold is the level of the last call. -/
theorem category_filter_last_write_wins (cfg : Config) (c : String)
    (l0 : LevelFilter) (ls : List LevelFilter)
    (hkey : countKey cfg.loggers c ≤ 1) :
    countKey (applyFilters cfg c (l0 :: ls)).loggers c = 1 ∧
    ((lookupEntry (applyFilters cfg c (l0 :: ls)).loggers c).map fun x => x.1)
      = some (some ((l0 :: ls).getLast (List.cons_ne_nil l0 ls))) := by
  induction ls generalizing cfg l0 with
  | nil =>
      refine ⟨filter_countKey_self cfg c l0 hkey, ?_⟩
      rw [show applyFilters cfg c [l0] = (cfg.with_category_level_filter c l0).1 from rfl,
        filter_lookup_self]
      rfl
  | cons l1 rest ih =>
      rw [show applyFilters cfg c (l0 :: l1 :: rest)
          = applyFilters ((cfg.with_category_level_filter c l0).1) c (l1 :: rest) from rfl]
      exact ih ((cfg.with_category_level_filter c l0).1) l1
        (le_of_eq (filter_countKey_self cfg c l0 hkey))

/-- Witness for `category_filter_last_write_wins` at a concrete input:
"Database" set to Error then Trace ends with one entry at Trace. -/
theorem category_filter_last_write_wins_witness :
    countKey (applyFilters Config.default "Database" [.error, .trace]).loggers
        "Database" = 1 ∧
    ((lookupEntry (applyFilters Config.default "Database" [.error, .trace]).loggers
        "Database").map fun x => x.1) = some (some .trace) :=
  category_filter_last_write_wins Config.default "Database" .error [.trace] (by decide)

/-- C8 (counterexample): builder order is *not* interchangeable around
`with_subsystem`: `with_category_level_filter` captures the subsystem current
at the time of the call, so calling `with_subsystem` after the category
override leaves that category's Sink Handle with the default empty
subsystem, and the two orderings produce inequivalent configurations. -/
theorem subsystem_order_changes_configuration :
    ¬ Config.equiv
        (((Config.default.with_subsystem "com.example.oslog").with_category_level_filter
          "Settings" .warn).1)
        (((Config.default.with_category_level_filter "Settings" .warn).1).with_subsystem
          "com.example.oslog") ∧
    ((lookupEntry (((Config.default.with_subsystem
        "com.example.oslog").with_category_level_filter "Settings" .warn).1).loggers
        "Settings").map fun x => x.2.subsystem) = some "com.example.oslog" ∧
    ((lookupEntry ((((Config.default.with_category_level_filter "Settings" .warn).1).with_subsystem
        "com.example.oslog")).loggers "Settings").map fun x => x.2.subsystem) = some "" :=
  ⟨fun h => absurd (h.2.2 "Settings") (by decide), by decide, by decide⟩

/-- C8 (amended): the builder calls are order-independent except for
last-write-wins per category *and* the placement of `with_subsystem`
relative to category overrides (each Sink Handle captures the subsystem
current at its `with_category_level_filter` call): `with_max_level` commutes
with both other calls, and two `with_category_level_filter` calls for
distinct categories commute up to registry-as-map equivalence. -/
theorem builder_call_commutations (cfg : Config) (a b : String)
    (la lb ml : LevelFilter) (sub : String) (hab : a ≠ b) :
    ((cfg.with_max_level ml).with_category_level_filter a la).1
      = ((cfg.with_category_level_filter a la).1).with_max_level ml ∧
    (cfg.with_max_level ml).with_subsystem sub
      = (cfg.with_subsystem sub).with_max_level ml ∧
    Config.equiv
      (((cfg.with_category_level_filter a la).1).with_category_level_filter b lb).1
      (((cfg.with_category_level_filter b lb).1).with_category_level_filter a la).1 := by
  refine ⟨?_, rfl, ?_, ?_, ?_⟩
  · unfold Config.with_category_level_filter Config.with_max_level
    split <;> rfl
  · rw [filter_fst_subsystem, filter_fst_subsystem, filter_fst_subsystem,
      filter_fst_subsystem]
  · rw [filter_fst_log_level, filter_fst_log_level, filter_fst_log_level,
      filter_fst_log_level]
  · intro k
    by_cases hka : k = a
    · subst hka
      rw [filter_lookup_ne _ _ hab, filter_lookup_self, filter_lookup_self,
        entrySink_filter_ne _ _ hab]
    · by_cases hkb : k = b
      · subst hkb
        rw [filter_lookup_self, filter_lookup_ne _ _ (Ne.symm hab), filter_lookup_self,
          entrySink_filter_ne _ _ (Ne.symm hab)]
      · rw [filter_lookup_ne _ _ hkb, filter_lookup_ne _ _ hka,
          filter_lookup_ne _ _ hka, filter_lookup_ne _ _ hkb]

/-- Witness for `builder_call_commutations` at concrete inputs. -/
theorem builder_call_commutations_witness :
    ((Config.default.with_max_level .info).with_category_level_filter "A" .warn).1
      = ((Config.default.with_category_level_filter "A" .warn).1).with_max_level .info ∧
    (Config.default.with_max_level .info).with_subsystem "sub"
      = (Config.default.with_subsystem "sub").with_max_level .info ∧
    Config.equiv
      (((Config.default.with_category_level_filter "A" .warn).1).with_category_level_filter
        "B" .error).1
      (((Config.default.with_category_level_filter "B" .error).1).with_category_level_filter
        "A" .warn).1 :=
  builder_call_commutations Config.default "A" "B" .warn .error .info "sub" (by decide)

/-- C9: no public logging operation (`enabled`, `log`, `flush`, `init_once`)
returns an error to its caller: every operation is total, and the single
fallible internal step (`log::set_logger`, the facade registration conflict)
is absorbed into a diagnostic in `init_once`; sink creation and emission
have no observable failures at this layer. -/
theorem api_calls_never_error (gs : GlobalState) (s : LogState) (call : ApiCall) :
    (runApi gs s call).isSome = true := by
  cases call with
  | enabledQ t l => rfl
  | logRec t l m => rfl
  | flushCall => rfl
  | initCall c =>
      unfold runApi setLoggerE
      cases gs.iosLogger <;> by_cases hset : gs.loggerSet <;>
        simp [hset] <;> cases hc : c.log_level <;> simp [hc]

/-- C10: logging never changes filtering outcomes: a lazily created entry
carries no threshold override, so after any sequence of `log` calls,
`enabled` returns for every category and severity exactly what it returned
before (a lazily registered category still resolves to the ambient
default). -/
theorem log_sequence_preserves_enabled (s : LogState)
    (records : List (String × Level × String)) (c : String) (l : Level) :
    OsLogger.enabled (runLogs s records).config (runLogs s records).maxLevel c l
      = OsLogger.enabled s.config s.maxLevel c l := by
  induction records generalizing s with
  | nil => rfl
  | cons r rest ih =>
      rw [show runLogs s (r :: rest) = runLogs (OsLogger.log s r.1 r.2.1 r.2.2) rest
          from rfl,
        ih (OsLogger.log s r.1 r.2.1 r.2.2)]
      exact enabled_after_log s r.1 r.2.1 r.2.2 c l

end Oslog
